import Mathlib

/-!
Verification of the racing-calendar service (`src/api.py`) against its
natural-language specification.  The Python code is shallowly embedded:
Python `str` becomes Lean `String` (a list of unicode scalar values),
Python lists become Lean lists, Python sets and dicts become association
lists whose membership/lookup semantics mirror the Python operations used
by the code, `datetime`/`date` become explicit records, and the fallible
timezone lookup returns an explicit result type.  All definitions are
executable so that every theorem can be checked on concrete inputs.
-/

set_option maxRecDepth 4000

namespace RacingCalendar

/-! ## Basic Python string primitives -/

/-- Python `str.lower()` restricted to ASCII letters (every character the
service's keyword tables compare against is either an ASCII letter, a digit,
punctuation, an accented vowel that is already lower case, or an emoji, so the
ASCII mapping is faithful on all data the code manipulates). -/
def charLower (c : Char) : Char :=
  if 'A' ≤ c ∧ c ≤ 'Z' then Char.ofNat (c.toNat + 32) else c

/-- Python `str.upper()` restricted to ASCII letters (see `charLower`). -/
def charUpper (c : Char) : Char :=
  if 'a' ≤ c ∧ c ≤ 'z' then Char.ofNat (c.toNat - 32) else c

def strLower (s : String) : String := String.mk (s.data.map charLower)

def strUpper (s : String) : String := String.mk (s.data.map charUpper)

/-- Whitespace characters removed by Python `str.strip()` (ASCII part). -/
def isPySpace (c : Char) : Bool :=
  c == ' ' || c == '\t' || c == '\n' || c == '\x0d' || c == '\x0b' || c == '\x0c'

/-- Python `str.strip()` on the character list. -/
def pyStrip (l : List Char) : List Char :=
  ((l.dropWhile isPySpace).reverse.dropWhile isPySpace).reverse

def strStrip (s : String) : String := String.mk (pyStrip s.data)

/-- Python substring test `needle in hay`. -/
def occursIn (needle hay : List Char) : Bool :=
  match hay with
  | [] => needle.isEmpty
  | _ :: t => needle.isPrefixOf hay || occursIn needle t

/-- The test `occursIn` decides the contiguous-sublist relation. -/
theorem occursIn_iff (needle hay : List Char) :
    occursIn needle hay = true ↔ needle <:+: hay := by
  induction hay with
  | nil =>
    simp [occursIn, List.isEmpty_iff]
  | cons a t ih =>
    simp only [occursIn, Bool.or_eq_true, ih, List.infix_cons_iff]
    rw [ List.isPrefixOf_iff_prefix]

/-- Python `", ".join(l)`. -/
def joinComma (l : List String) : String := String.intercalate ", " l

/-! ## Dates and datetimes (Python `datetime.date` / `datetime.datetime`) -/

structure Date where
  year : Nat
  month : Nat
  day : Nat
deriving DecidableEq, Repr

/-- A Python `datetime.datetime`; `utcOffsetMinutes = none` models a naive
datetime, `some o` a timezone-aware one with fixed utcoffset `o` minutes. -/
structure DateTime where
  date : Date
  hour : Nat
  minute : Nat
  second : Nat
  utcOffsetMinutes : Option Int
deriving DecidableEq, Repr

def pad2 (n : Nat) : String := if n < 10 then "0" ++ toString n else toString n

def pad4 (n : Nat) : String :=
  if n < 10 then "000" ++ toString n
  else if n < 100 then "00" ++ toString n
  else if n < 1000 then "0" ++ toString n
  else toString n

/-- Python `date.isoformat()`. -/
def Date.iso (d : Date) : String :=
  pad4 d.year ++ "-" ++ pad2 d.month ++ "-" ++ pad2 d.day

/-- Rendering of a fixed utcoffset as Python `datetime.isoformat()` appends it. -/
def offsetIso (o : Int) : String :=
  let sign := if o < 0 then "-" else "+"
  let a := o.natAbs
  sign ++ pad2 (a / 60) ++ ":" ++ pad2 (a % 60)

/-- Python `datetime.isoformat()` (microseconds are zero and hence omitted,
exactly as for the service's parsed timestamps). -/
def DateTime.isoformat (t : DateTime) : String :=
  t.date.iso ++ "T" ++ pad2 t.hour ++ ":" ++ pad2 t.minute ++ ":" ++ pad2 t.second ++
    (match t.utcOffsetMinutes with
     | none => ""
     | some o => offsetIso o)

def isLeap (y : Nat) : Bool := (y % 4 == 0 && y % 100 != 0) || y % 400 == 0

def daysInMonth (y m : Nat) : Nat :=
  if m = 2 then (if isLeap y then 29 else 28)
  else if m = 4 ∨ m = 6 ∨ m = 9 ∨ m = 11 then 30
  else 31

/-- Python `d + timedelta(days=1)` on a `date`. -/
def nextDay (d : Date) : Date :=
  if d.day < daysInMonth d.year d.month then ⟨d.year, d.month, d.day + 1⟩
  else if d.month < 12 then ⟨d.year, d.month + 1, 1⟩
  else ⟨d.year + 1, 1, 1⟩

/-! ## Domain models (`SessionModel`, `EventModel` from `api.py`) -/

structure SessionModel where
  name : String
  start : DateTime
  «end» : DateTime
deriving DecidableEq, Repr

/-- The record `EventModel` from `api.py`; Python float coordinates are modelled as
rationals (the service only copies them into the output, never computes). -/
structure EventModel where
  title : String
  description : String := ""
  location : Option String := none
  geo_lat : Option Rat := none
  geo_lon : Option Rat := none
  url : Option String := none
  broadcasters : List String := []
  categories : List String := []
  status : String := "CONFIRMED"
  priority : Int := 0
  sequence : Int := 0
  start : Option DateTime := none
  «end» : Option DateTime := none
  sessions : List SessionModel := []
deriving DecidableEq, Repr

/-! ## `AppSettings` configuration tables (insertion order preserved, as for
Python dicts) -/

def ICONS : List (String × String) :=
  [("F1", "🏎️"), ("GT", "🏁"), ("NASCAR", "🏁"), ("MOTOGP", "🏍️"), ("DEFAULT", "🏆")]

def CATEGORY_KEYWORDS : List (String × List String) :=
  [("nascar", ["nascar", "cup series", "daytona 500", "brickyard", "southern 500"]),
   ("f1", ["🏎️", "formula 1", "f1", "grand prix"]),
   ("gt", ["🏁", "gt", "grand touring", "endurance"]),
   ("motogp", ["🏍️", "motogp", "moto gp"])]

def SESSION_ALIASES : List (String × List String) :=
  [("practice", ["p1", "p2", "p3", "fp1", "fp2", "fp3", "práctica",
                 "practica", "warm up", "warmup", "practice", "libres",
                 "free practice", "shakedown"]),
   ("qualifying", ["qualy", "qualifying", "clasificación", "clasificacion"]),
   ("sprint", []),
   ("sprint_qualy", []),
   ("race", ["carrera", "race", "grand prix"]),
   ("p1", ["p1"]),
   ("p2", ["p2"]),
   ("p3", ["p3"]),
   ("fp1", ["fp1", "free practice 1"]),
   ("fp2", ["fp2", "free practice 2"]),
   ("practica", ["práctica", "practica"]),
   ("warmup", ["warm up", "warmup"]),
   ("q1", ["q1"]),
   ("q2", ["q2"])]

/-- Python `dict.get(k)` on an insertion-ordered dict. -/
def listLookup {α : Type} (l : List (String × α)) (k : String) : Option α :=
  (l.find? (fun p => p.1 == k)).map (·.2)

/-- The alternation order of `AppSettings.icon_regex`: `ICONS.values()` in
insertion order (the duplicate chequered flag is kept, as in the source). -/
def iconPatterns : List (List Char) := ICONS.map (fun p => p.2.data)

/-! ## `CalendarService._determine_category` -/

/-- Python `any(k in title_lower for k in keywords)` for one rule. -/
def ruleMatchesTitle (r : String × List String) (titleLower : String) : Bool :=
  r.2.any (fun k => occursIn k.data titleLower.data)

/-- Python `cat_lower in self.settings.CATEGORY_KEYWORDS` (dict-key
membership, on the lower-cased tag). -/
def isKnownTag (t : String) : Bool :=
  CATEGORY_KEYWORDS.any (fun r => r.1 == strLower t)

def determineCategory (event : EventModel) : String :=
  let titleLower := strLower event.title
  match CATEGORY_KEYWORDS.find? (fun r => ruleMatchesTitle r titleLower) with
  | some r => r.1
  | none =>
    match event.categories.find? (fun t => isKnownTag t) with
    | some t => strLower t
    | none => "other"

/-! ## `CalendarService._is_session_match` -/

/-- Python `SESSION_ALIASES.get(filter_key, [filter_key])`. -/
def aliasesFor (key : String) : List String :=
  match listLookup SESSION_ALIASES key with
  | some l => l
  | none => [key]

/-- The normalized session name `session_name.lower().strip()`. -/
def normName (sessionName : String) : String :=
  String.mk (pyStrip (strLower sessionName).data)

def isSessionMatch (sessionName : String) (requestedFilters : List String) : Bool :=
  let nameLower := normName sessionName
  let paddedName := " " ++ nameLower ++ " "
  requestedFilters.any (fun filterKey =>
    if filterKey = "sprint" then
      occursIn "sprint".data nameLower.data &&
        !occursIn "qual".data nameLower.data && !occursIn "clasif".data nameLower.data
    else if filterKey = "sprint_qualy" then
      occursIn "sprint".data nameLower.data &&
        (occursIn "qual".data nameLower.data || occursIn "clasif".data nameLower.data)
    else
      (aliasesFor filterKey).any (fun al =>
        occursIn (" " ++ al ++ " ").data paddedName.data || nameLower == al))

/-! ## UUID version 5 (`uuid.uuid5(NAMESPACE_DNS, seed)`), built on SHA-1 -/

def w32 (x : Nat) : Nat := x % 4294967296

def rotl32 (x k : Nat) : Nat := w32 ((x <<< k) ||| (x >>> (32 - k)))

def sha1F (t b c d : Nat) : Nat :=
  if t < 20 then (b &&& c) ||| ((4294967295 ^^^ b) &&& d)
  else if t < 40 then b ^^^ c ^^^ d
  else if t < 60 then (b &&& c) ||| (b &&& d) ||| (c &&& d)
  else b ^^^ c ^^^ d

def sha1K (t : Nat) : Nat :=
  if t < 20 then 0x5A827999
  else if t < 40 then 0x6ED9EBA1
  else if t < 60 then 0x8F1BBCDC
  else 0xCA62C1D6

/-- Extend the 16 block words to 80 schedule words; `acc` holds the words
produced so far in reverse order. -/
def sha1ExtendAux : Nat → List Nat → List Nat
  | 0, acc => acc
  | n + 1, acc =>
    let w := rotl32 ((acc.getD 2 0) ^^^ (acc.getD 7 0) ^^^ (acc.getD 13 0) ^^^ (acc.getD 15 0)) 1
    sha1ExtendAux n (w :: acc)

def sha1Schedule (block : List Nat) : List Nat :=
  (sha1ExtendAux 64 block.reverse).reverse

/-- The 80 compression rounds; `t` is the round index. -/
def sha1Loop : Nat → List Nat → Nat × Nat × Nat × Nat × Nat → Nat × Nat × Nat × Nat × Nat
  | _, [], st => st
  | t, w :: ws, (a, b, c, d, e) =>
    let temp := w32 (rotl32 a 5 + sha1F t b c d + e + sha1K t + w)
    sha1Loop (t + 1) ws (temp, a, rotl32 b 30, c, d)

def sha1ProcessBlock (h : Nat × Nat × Nat × Nat × Nat) (block : List Nat) :
    Nat × Nat × Nat × Nat × Nat :=
  let (h0, h1, h2, h3, h4) := h
  let (a, b, c, d, e) := sha1Loop 0 (sha1Schedule block) (h0, h1, h2, h3, h4)
  (w32 (h0 + a), w32 (h1 + b), w32 (h2 + c), w32 (h3 + d), w32 (h4 + e))

/-- Process the padded message (as 32-bit words) block by block; the fuel is
the word-list length, which always suffices since each step consumes 16. -/
def sha1Blocks : Nat → List Nat → Nat × Nat × Nat × Nat × Nat → Nat × Nat × Nat × Nat × Nat
  | 0, _, h => h
  | _ + 1, [], h => h
  | fuel + 1, ws@(_ :: _), h => sha1Blocks fuel (ws.drop 16) (sha1ProcessBlock h (ws.take 16))

/-- Group bytes into big-endian 32-bit words. -/
def bytesToWords : List Nat → List Nat
  | b0 :: b1 :: b2 :: b3 :: rest =>
    (b0 * 16777216 + b1 * 65536 + b2 * 256 + b3) :: bytesToWords rest
  | _ => []

def natToBytesBE (k n : Nat) : List Nat :=
  (List.range k).map (fun i => (n >>> (8 * (k - 1 - i))) % 256)

/-- SHA-1 padding: `0x80`, zeros to 56 mod 64, then the 64-bit bit length. -/
def sha1Pad (msg : List Nat) : List Nat :=
  let len := msg.length
  let r := (len + 1) % 64
  let zeros := (120 - r) % 64
  msg ++ [128] ++ List.replicate zeros 0 ++ natToBytesBE 8 (len * 8)

/-- SHA-1 digest (20 bytes) of a byte list. -/
def sha1 (msg : List Nat) : List Nat :=
  let ws := bytesToWords (sha1Pad msg)
  let (h0, h1, h2, h3, h4) :=
    sha1Blocks ws.length ws (0x67452301, 0xEFCDAB89, 0x98BADCFE, 0x10325476, 0xC3D2E1F0)
  natToBytesBE 4 h0 ++ natToBytesBE 4 h1 ++ natToBytesBE 4 h2 ++ natToBytesBE 4 h3 ++ natToBytesBE 4 h4

/-- UTF-8 encoding of one unicode scalar value. -/
def utf8EncodeChar (c : Char) : List Nat :=
  let n := c.toNat
  if n < 128 then [n]
  else if n < 2048 then [192 ||| (n >>> 6), 128 ||| (n &&& 63)]
  else if n < 65536 then
    [224 ||| (n >>> 12), 128 ||| ((n >>> 6) &&& 63), 128 ||| (n &&& 63)]
  else
    [240 ||| (n >>> 18), 128 ||| ((n >>> 12) &&& 63),
     128 ||| ((n >>> 6) &&& 63), 128 ||| (n &&& 63)]

def utf8Encode (s : String) : List Nat := (s.data.map utf8EncodeChar).flatten

/-- The bytes of `uuid.NAMESPACE_DNS` (6ba7b810-9dad-11d1-80b4-00c04fd430c8). -/
def NAMESPACE_DNS_BYTES : List Nat :=
  [0x6b, 0xa7, 0xb8, 0x10, 0x9d, 0xad, 0x11, 0xd1,
   0x80, 0xb4, 0x00, 0xc0, 0x4f, 0xd4, 0x30, 0xc8]

/-- The 16 bytes of `uuid5(NAMESPACE_DNS, name)`: the first 16 SHA-1 bytes of
namespace ++ name with the version nibble set to 5 and the RFC 4122 variant. -/
def uuid5Bytes (nameBytes : List Nat) : List Nat :=
  let d := (sha1 (NAMESPACE_DNS_BYTES ++ nameBytes)).take 16
  let b6 := ((d.getD 6 0) &&& 15) ||| 80
  let b8 := ((d.getD 8 0) &&& 63) ||| 128
  d.take 6 ++ [b6] ++ (d.drop 7).take 1 ++ [b8] ++ d.drop 9

def hexDigit (n : Nat) : Char := if n < 10 then Char.ofNat (48 + n) else Char.ofNat (87 + n)

def byteHex (b : Nat) : List Char := [hexDigit (b / 16), hexDigit (b % 16)]

/-- Python `str(UUID(bytes=...))`: lowercase hex in 8-4-4-4-12 groups. -/
def uuidToString (bytes : List Nat) : String :=
  let hx := fun (l : List Nat) => String.mk (l.map byteHex).flatten
  hx (bytes.take 4) ++ "-" ++ hx ((bytes.drop 4).take 2) ++ "-" ++
    hx ((bytes.drop 6).take 2) ++ "-" ++ hx ((bytes.drop 8).take 2) ++ "-" ++
    hx (bytes.drop 10)

/-- Python `str(uuid5(NAMESPACE_DNS, seed))` for a unicode seed string. -/
def uuid5String (seed : String) : String := uuidToString (uuid5Bytes (utf8Encode seed))


/-! ## Timezones (`zoneinfo.ZoneInfo`) -/

/-- A resolved timezone.  `ZoneInfo` internals are not repository code; a zone
is modelled extensionally as the wall-clock conversion `datetime.astimezone`
performs with it (instant preserving, so only the rendering of the same
instant changes — no claim below depends on the conversion's arithmetic). -/
structure Zone where
  convert : DateTime → DateTime

/-- Outcome of `ZoneInfo(key)`. -/
inductive TzResult where
  | found (z : Zone)
  | notFound
  | invalid

/-- Python `key.split("/")` on the character list. -/
def splitOnSlash : List Char → List (List Char)
  | [] => [[]]
  | c :: t =>
    if c = '/' then [] :: splitOnSlash t
    else
      match splitOnSlash t with
      | h :: r => (c :: h) :: r
      | [] => [[c]]

/-- Modelled from CPython `posixpath.normpath` (the string variant): collapse
repeated separators, drop "." components, resolve ".." against a preceding
component where possible (leading ".." components survive for relative paths
and are dropped at the root of absolute ones), keep the POSIX special case of
exactly two initial slashes, and return "." when everything cancels. -/
def pyNormpath (path : List Char) : List Char :=
  if path = [] then ['.']
  else
    let initialSlashes : Nat :=
      if path.take 1 = ['/'] then
        if path.take 2 = ['/', '/'] ∧ path.take 3 ≠ ['/', '/', '/'] then 2 else 1
      else 0
    let newComps := ((splitOnSlash path).foldl
      (fun (acc : List (List Char)) comp =>
        if comp = [] ∨ comp = ['.'] then acc
        else if comp ≠ ['.', '.'] ∨ (initialSlashes = 0 ∧ acc = []) ∨
            acc.head? = some ['.', '.'] then comp :: acc
        else
          match acc with
          | _ :: rest => rest
          | [] => []) []).reverse
    let result := List.replicate initialSlashes '/' ++ List.intercalate ['/'] newComps
    if result = [] then ['.'] else result

/-- Modelled from CPython `zoneinfo._tzpath._validate_tzfile_path`, which
raises `ValueError` — NOT caught by the service's
`except (ZoneInfoNotFoundError, KeyError)` clause — unless the key passes all
three checks: it is not an absolute path (`os.path.isabs`); normalising it
does not change its length (`len(os.path.normpath(path)) == len(path)`, so
keys with empty, "." or unresolved-".." components or a trailing slash are
rejected); and joining it onto the base `_TEST_PATH = "_/"` and normalising
stays inside the base (`os.path.normpath("_/" + path).startswith("_/")`). -/
def validTzKey (key : String) : Bool :=
  (match key.data with
   | '/' :: _ => false
   | _ => true) &&
  (pyNormpath key.data).length == key.data.length &&
  (['_', '/'].isPrefixOf (pyNormpath (['_', '/'] ++ key.data)))

/-- Lookup `ZoneInfo(key)` against a zone database `db` (the installed tzdata,
abstracted as a partial map from key to zone). -/
def zoneInfoLookup (db : String → Option Zone) (key : String) : TzResult :=
  if validTzKey key then
    match db key with
    | some z => .found z
    | none => .notFound
  else .invalid

/-! ## `CalendarService._clean_title` (`icon_regex.sub("", title).strip()`) -/

/-- Length of the regex match at the head of `l`: the first alternative of
`icon_regex` that is a prefix of `l` (0 when none matches — all alternatives
are non-empty, so 0 is unambiguous). -/
def matchPrefixLen (pats : List (List Char)) (l : List Char) : Nat :=
  match pats.find? (fun p => p.isPrefixOf l) with
  | some p => p.length
  | none => 0

/-- One left-to-right, non-overlapping pass of `icon_regex.sub("", ·)`:
at each position the first matching alternative is deleted and scanning
resumes after it.  The fuel (initially the string length) bounds the
recursion; every step consumes at least one character, so it never runs out. -/
def subGlyphsFuel : Nat → List Char → List Char
  | 0, l => l
  | _ + 1, [] => []
  | fuel + 1, a :: t =>
    let n := matchPrefixLen iconPatterns (a :: t)
    if n = 0 then a :: subGlyphsFuel fuel t
    else subGlyphsFuel fuel ((a :: t).drop n)

def subGlyphs (l : List Char) : List Char := subGlyphsFuel l.length l

def cleanTitle (title : String) : String := String.mk (pyStrip (subGlyphs title.data))

/-! ## `CalendarService._format_description` -/

def strOptTruthy : Option String → Bool
  | some s => s ≠ ""
  | none => false

def formatDescription (event : EventModel) (sessionName : String) (isHtml : Bool) : String :=
  if isHtml then
    String.join
      (["<b>" ++ sessionName ++ "</b><br>"] ++
       (if event.broadcasters ≠ [] then
          ["📺 <b>TV:</b> " ++ joinComma event.broadcasters ++ "<br>"] else []) ++
       (if strOptTruthy event.location then ["📍 " ++ event.location.getD "" ++ "<br>"] else []) ++
       (if strOptTruthy event.url then
          ["🔗 <a href='" ++ event.url.getD "" ++ "'>Info Oficial</a><br>"] else []) ++
       (if event.description ≠ "" then ["<br><i>" ++ event.description ++ "</i>"] else []))
  else
    String.intercalate "\n"
      ([sessionName] ++
       (if event.broadcasters ≠ [] then ["📺 TV: " ++ joinComma event.broadcasters] else []) ++
       (if strOptTruthy event.location then ["📍 " ++ event.location.getD ""] else []) ++
       (if strOptTruthy event.url then ["🔗 " ++ event.url.getD ""] else []) ++
       (if event.description ≠ "" then ["\n" ++ event.description] else []))

/-! ## `CalendarService._create_ical_event` -/

/-- A `dtstart`/`dtend` value: either a Python `date` (all-day) or a
`datetime` (timed). -/
inductive ICalTime where
  | d (d : Date)
  | dt (t : DateTime)
deriving DecidableEq, Repr

/-- One VEVENT as assembled by `_create_ical_event`; `none`/`[]` in an
optional field models the corresponding `evt.add` call being skipped. -/
structure ICalEvent where
  summary : String
  dtstart : ICalTime
  dtend : ICalTime
  description : String
  xAltDesc : String
  location : Option String
  geo : Option (Rat × Rat)
  url : Option String
  categories : List String
  priority : Int
  status : String
  sequence : Int
  transp : String
  dtstamp : DateTime
  uid : String
  alarmAction : String
  alarmDescription : String
  alarmTriggerMinutes : Int
deriving DecidableEq, Repr

/-- Python `datetime.now(timezone.utc)` is passed in as `now` (the embedding makes
the ambient clock an explicit argument). -/
def createIcalEvent (uidSeed summary : String) (start «end» : ICalTime)
    (eventData : EventModel) (sessionName : String) (isAllDay : Bool)
    (zone : Option Zone) (now : DateTime) : ICalEvent :=
  let start := match zone, start with
    | some z, .dt t => ICalTime.dt (z.convert t)
    | _, s => s
  let end1 := match zone, «end» with
    | some z, .dt t => ICalTime.dt (z.convert t)
    | _, e => e
  let dtend := match isAllDay, end1 with
    | true, .d dd => ICalTime.d (nextDay dd)
    | _, e => e
  { summary := summary
    dtstart := start
    dtend := dtend
    description := formatDescription eventData sessionName false
    xAltDesc := formatDescription eventData sessionName true
    location := if strOptTruthy eventData.location then eventData.location else none
    geo := match eventData.geo_lat, eventData.geo_lon with
      | some la, some lo => some (la, lo)
      | _, _ => none
    url := if strOptTruthy eventData.url then eventData.url else none
    categories := eventData.categories
    priority := eventData.priority
    status := eventData.status
    sequence := eventData.sequence
    transp := "TRANSPARENT"
    dtstamp := now
    uid := uuid5String uidSeed ++ "@racing-manager.com"
    alarmAction := "DISPLAY"
    alarmDescription := "Arranca: " ++ summary
    alarmTriggerMinutes := -15 }

/-! ## `CalendarService.generate_calendar` -/

/-- Python truthiness of an `Optional[Set[...]]` / `Optional[Dict[...]]`
argument: `None` and the empty collection are both falsy. -/
def optTruthy {α : Type} : Option (List α) → Bool
  | some (_ :: _) => true
  | _ => false

/-- Resolution of the effective session filter (lines 297-302 of `api.py`):
the per-category entry, when the per-category dict is truthy and has one for
this category, otherwise the global session filter. -/
def resolveEffectiveSessions (catSessionFilters : Option (List (String × List String)))
    (filterSessions : Option (List String)) (category : String) : Option (List String) :=
  let fromCat : Option (List String) :=
    match catSessionFilters with
    | some m => if m = [] then none else listLookup m category
    | none => none
  match fromCat with
  | some f => some f
  | none => filterSessions

/-- Python `ICONS.get(category.upper(), ICONS["DEFAULT"])`. -/
def iconFor (category : String) : String :=
  match listLookup ICONS (strUpper category) with
  | some i => i
  | none => (listLookup ICONS "DEFAULT").getD ""

/-- The body of the `for entry in events` loop: the calendar entries one
event contributes. -/
def processEvent (zone : Option Zone) (now : DateTime)
    (filterCats : Option (List String)) (filterSessions : Option (List String))
    (catSessionFilters : Option (List (String × List String)))
    (entry : EventModel) : List ICalEvent :=
  let category := determineCategory entry
  if optTruthy filterCats && !((filterCats.getD []).contains category) then []
  else
    let effectiveSessions := resolveEffectiveSessions catSessionFilters filterSessions category
    let icon := iconFor category
    let cleanT := cleanTitle entry.title
    match entry.sessions with
    | _ :: _ =>
      entry.sessions.filterMap (fun session =>
        if optTruthy effectiveSessions &&
            !isSessionMatch session.name (effectiveSessions.getD []) then none
        else
          some (createIcalEvent
            (entry.title ++ "|" ++ session.name ++ "|" ++ session.start.isoformat)
            (icon ++ " " ++ session.name ++ " | " ++ cleanT)
            (.dt session.start) (.dt session.«end») entry session.name false zone now))
    | [] =>
      match entry.start, entry.«end» with
      | some s, some e =>
        if optTruthy effectiveSessions && !((effectiveSessions.getD []).contains "race") then []
        else
          [createIcalEvent (entry.title ++ "|main") (icon ++ " " ++ cleanT)
            (.d s.date) (.d e.date) entry cleanT true zone now]
      | _, _ => []

/-- The assembled calendar document.  `tzWarning` records that
`logger.warning("Zona horaria desconocida ...")` fired. -/
structure Calendar where
  prodid : String
  version : String
  calname : String
  publishedTtl : String
  xWrTimezone : Option String
  tzWarning : Bool
  events : List ICalEvent

/-- The operation `CalendarService.generate_calendar`.  An uncaught exception (the
`ValueError` a path-invalid timezone key raises inside `ZoneInfo`) is an
`Except.error`; the service's `except` clause only catches the not-found
case. -/
def generateCalendar (db : String → Option Zone) (now : DateTime)
    (events : List EventModel)
    (filterCats : Option (List String)) (filterSessions : Option (List String))
    (catSessionFilters : Option (List (String × List String)))
    (targetTz : Option String) : Except String Calendar :=
  let build : Option Zone → Option String → Bool → Calendar := fun zone xwr warn =>
    { prodid := "-//RacingManager//Dynamic//ES"
      version := "2.0"
      calname := "Racing Schedule"
      publishedTtl := "PT1H"
      xWrTimezone := xwr
      tzWarning := warn
      events := (events.map (processEvent zone now filterCats filterSessions catSessionFilters)).flatten }
  match targetTz with
  | some tzStr =>
    if tzStr = "" then .ok (build none none false)  -- `if target_tz:` — "" is falsy
    else
      match zoneInfoLookup db tzStr with
      | .found z => .ok (build (some z) (some tzStr) false)
      | .notFound => .ok (build none none true)
      | .invalid => .error ("ValueError: invalid ZoneInfo key: " ++ tzStr)
  | none => .ok (build none none false)

/-- Residual glyph occurrences after a substitution pass: true when some
alternative of `icon_regex` matches at some position of `l`. -/
def hasGlyphOcc : List Char → Bool
  | [] => false
  | a :: t => if matchPrefixLen iconPatterns (a :: t) = 0 then hasGlyphOcc t else true

/-! ## General helper lemmas -/

theorem find?_eq_of_first {α : Type} (p : α → Bool) (l : List α) (i : Nat) (r : α)
    (hi : l[i]? = some r) (hp : p r = true)
    (hmin : ∀ j r', j < i → l[j]? = some r' → p r' = false) :
    l.find? p = some r := by
  induction l generalizing i with
  | nil => simp at hi
  | cons a t ih =>
    cases i with
    | zero =>
      simp only [List.getElem?_cons_zero, Option.some.injEq] at hi
      subst hi
      exact List.find?_cons_of_pos _ hp
    | succ k =>
      have ha : p a = false := hmin 0 a (Nat.succ_pos k) (by simp)
      rw [List.find?_cons_of_neg _ (by simp [ha])]
      exact ih k (by simpa using hi)
        (fun j r' hj hjr => hmin (j + 1) r' (by omega) (by simpa using hjr))

theorem length_filterMap_some {α β : Type} (f : α → β) (l : List α) :
    (l.filterMap (fun a => some (f a))).length = l.length := by
  induction l with
  | nil => rfl
  | cons a t ih => simp [List.filterMap_cons, ih]

theorem dropWhile_dropWhile (p : Char → Bool) (l : List Char) :
    (l.dropWhile p).dropWhile p = l.dropWhile p := by
  induction l with
  | nil => rfl
  | cons a t ih =>
    by_cases h : p a = true
    · simpa [List.dropWhile_cons, h] using ih
    · simp [List.dropWhile_cons, h]

theorem head_false_of_dropWhile_cons (p : Char → Bool) (l : List Char) (a : Char)
    (t : List Char) (h : l.dropWhile p = a :: t) : p a = false := by
  induction l with
  | nil => simp at h
  | cons b l' ih =>
    by_cases hb : p b = true
    · rw [List.dropWhile_cons_of_pos hb] at h
      exact ih h
    · rw [List.dropWhile_cons_of_neg (by simp [hb])] at h
      obtain ⟨rfl, -⟩ := List.cons.injEq .. ▸ h
      simpa using hb

theorem suffix_exists_of_dropWhile (p : Char → Bool) (l : List Char) :
    ∃ s, s ++ l.dropWhile p = l := by
  induction l with
  | nil => exact ⟨[], rfl⟩
  | cons a t ih =>
    by_cases h : p a = true
    · obtain ⟨s, hs⟩ := ih
      exact ⟨a :: s, by simp [List.dropWhile_cons, h, hs]⟩
    · exact ⟨[], by simp [List.dropWhile_cons, h]⟩

theorem pyStrip_idem (l : List Char) : pyStrip (pyStrip l) = pyStrip l := by
  unfold pyStrip
  have h1 : (((l.dropWhile isPySpace).reverse.dropWhile isPySpace).reverse).dropWhile
      isPySpace = ((l.dropWhile isPySpace).reverse.dropWhile isPySpace).reverse := by
    cases hrev : ((l.dropWhile isPySpace).reverse.dropWhile isPySpace).reverse with
    | nil => rfl
    | cons a t =>
      obtain ⟨s, hs⟩ := suffix_exists_of_dropWhile isPySpace (l.dropWhile isPySpace).reverse
      have hA : l.dropWhile isPySpace = a :: (t ++ s.reverse) := by
        have h2 := congrArg List.reverse hs
        simp only [List.reverse_append, List.reverse_reverse] at h2
        rw [hrev] at h2
        simpa using h2.symm
      have hpa : isPySpace a = false := head_false_of_dropWhile_cons _ _ _ _ hA
      exact List.dropWhile_cons_of_neg (by simp [hpa])
  rw [h1, List.reverse_reverse, dropWhile_dropWhile]

theorem subGlyphsFuel_of_no_occ (fuel : Nat) :
    ∀ l : List Char, hasGlyphOcc l = false → subGlyphsFuel fuel l = l := by
  induction fuel with
  | zero => intro l _; rfl
  | succ n ih =>
    intro l h
    cases l with
    | nil => rfl
    | cons a t =>
      by_cases hm : matchPrefixLen iconPatterns (a :: t) = 0
      · rw [hasGlyphOcc, if_pos hm] at h
        show (if matchPrefixLen iconPatterns (a :: t) = 0 then a :: subGlyphsFuel n t
              else subGlyphsFuel n ((a :: t).drop (matchPrefixLen iconPatterns (a :: t)))) =
            a :: t
        rw [if_pos hm, ih t h]
      · rw [hasGlyphOcc, if_neg hm] at h
        exact absurd h (by simp)

theorem subGlyphs_of_no_occ (l : List Char) (h : hasGlyphOcc l = false) :
    subGlyphs l = l :=
  subGlyphsFuel_of_no_occ _ l h

/-! ## Concrete fixtures used by witnesses and counterexamples -/

def now0 : DateTime := ⟨⟨2025, 1, 1⟩, 0, 0, 0, some 0⟩

/-- A session-bearing event whose only session starts at 10:00 UTC. -/
def evClock10 : EventModel :=
  { title := "Grand Prix",
    sessions := [⟨"Race", ⟨⟨2025, 3, 2⟩, 10, 0, 0, some 0⟩, ⟨⟨2025, 3, 2⟩, 12, 0, 0, some 0⟩⟩] }

/-- The same event with only the session's clock time moved to 11:00 UTC
(same calendar date). -/
def evClock11 : EventModel :=
  { title := "Grand Prix",
    sessions := [⟨"Race", ⟨⟨2025, 3, 2⟩, 11, 0, 0, some 0⟩, ⟨⟨2025, 3, 2⟩, 12, 0, 0, some 0⟩⟩] }

/-- A session-less (whole-event) span in March. -/
def evSpanMar : EventModel :=
  { title := "Daytona Weekend",
    start := some ⟨⟨2025, 3, 1⟩, 0, 0, 0, some 0⟩,
    «end» := some ⟨⟨2025, 3, 3⟩, 0, 0, 0, some 0⟩ }

/-- The same whole-event span moved to different calendar dates in April. -/
def evSpanApr : EventModel :=
  { title := "Daytona Weekend",
    start := some ⟨⟨2025, 4, 5⟩, 0, 0, 0, some 0⟩,
    «end» := some ⟨⟨2025, 4, 7⟩, 0, 0, 0, some 0⟩ }

/-- Modelled from the spec: the identifier seed the specification describes,
`title + session-name (or "main") + calendar-date of start`, with no
time-of-day component (used only to compare against the seed the code
actually builds). -/
def specUidSeed (title sessionName : String) (startDate : Date) : String :=
  title ++ "|" ++ sessionName ++ "|" ++ startDate.iso

/-! ## C10 — title sanitizer -/

/-- The four-character title `U+1F3CE U+1F3CE U+FE0F U+FE0F`: the single
substitution pass deletes the middle `U+1F3CE U+FE0F` pair and the remaining
characters splice into a fresh racing-car glyph. -/
def doubleGlyphTitle : String :=
  String.mk [Char.ofNat 0x1F3CE, Char.ofNat 0x1F3CE, Char.ofNat 0xFE0F, Char.ofNat 0xFE0F]

/-- C10 counterexample: the title sanitizer is not idempotent — on
`doubleGlyphTitle` one application leaves a racing-car glyph that a second
application removes, so sanitizing twice differs from sanitizing once. -/
theorem c10_not_idempotent_cex :
    cleanTitle (cleanTitle doubleGlyphTitle) ≠ cleanTitle doubleGlyphTitle := by decide

/-- C10 (amended): the sanitizer removes glyph occurrences in one
left-to-right non-overlapping pass and trims surrounding whitespace; applying
it twice equals applying it once for every title whose sanitized form
contains no residual glyph occurrence (deletion can splice adjacent
characters into a new glyph, in which case a second pass removes more). -/
theorem c10_idem_of_no_residual_glyph (t : String)
    (h : hasGlyphOcc (cleanTitle t).data = false) :
    cleanTitle (cleanTitle t) = cleanTitle t := by
  have hdata : (cleanTitle t).data = pyStrip (subGlyphs t.data) := rfl
  have hfix : subGlyphs ((cleanTitle t).data) = (cleanTitle t).data :=
    subGlyphs_of_no_occ _ h
  show String.mk (pyStrip (subGlyphs ((cleanTitle t).data))) = cleanTitle t
  rw [hfix, hdata, pyStrip_idem]
  rfl

/-- C10 witness: a concrete glyph-bearing title on which sanitization is
idempotent, via `c10_idem_of_no_residual_glyph`. -/
theorem c10_idem_of_no_residual_glyph_witness :
    cleanTitle (cleanTitle "🏎️ Monaco GP 🏆") = cleanTitle "🏎️ Monaco GP 🏆" :=
  c10_idem_of_no_residual_glyph "🏎️ Monaco GP 🏆" (by decide)

/-! ## C1 — stable identifier seed -/

/-- C1 (code behaviour at the failing inputs): moving only the session's
clock time within the same calendar date changes the generated identifier
(the seed embeds `start.isoformat()`, time included), the identifier is not
the version-5 UUID of the spec's date-only seed, and two whole-event spans of
the same title on different calendar dates share one identifier (the
whole-event seed is `title|main`, with no date). -/
theorem c1_uid_seed_divergence :
    (processEvent none now0 none none none evClock10).map (·.uid) ≠
      (processEvent none now0 none none none evClock11).map (·.uid) ∧
    (processEvent none now0 none none none evClock10).map (·.uid) ≠
      [uuid5String (specUidSeed "Grand Prix" "Race" ⟨2025, 3, 2⟩) ++ "@racing-manager.com"] ∧
    (processEvent none now0 none none none evSpanMar).map (·.uid) =
      (processEvent none now0 none none none evSpanApr).map (·.uid) := by
  refine ⟨by decide, by decide, by decide⟩

/-! ## C4 — ordered keyword classification -/

/-- C4: classification walks the ordered rule list and returns the tag of the
first rule with a keyword occurring in the lower-cased title (earlier-listed
rules always win), falls back to the first explicit category tag that
case-insensitively equals a known rule tag (returned lower-cased), otherwise
returns "other"; its result always lies in the rule tags plus "other". -/
theorem c4_classification_priority_and_fallback (e : EventModel) :
    (∀ (i : Nat) r, CATEGORY_KEYWORDS[i]? = some r →
        ruleMatchesTitle r (strLower e.title) = true →
        (∀ (j : Nat) r', j < i → CATEGORY_KEYWORDS[j]? = some r' →
          ruleMatchesTitle r' (strLower e.title) = false) →
        determineCategory e = r.1) ∧
    ((∀ r ∈ CATEGORY_KEYWORDS, ruleMatchesTitle r (strLower e.title) = false) →
      ((∀ (i : Nat) t, e.categories[i]? = some t → isKnownTag t = true →
          (∀ (j : Nat) t', j < i → e.categories[j]? = some t' → isKnownTag t' = false) →
          determineCategory e = strLower t) ∧
       ((∀ t ∈ e.categories, isKnownTag t = false) → determineCategory e = "other"))) ∧
    determineCategory e ∈ ["nascar", "f1", "gt", "motogp", "other"] := by
  refine ⟨?_, ?_, ?_⟩
  · intro i r hi hp hmin
    simp only [determineCategory, find?_eq_of_first _ CATEGORY_KEYWORDS i r hi hp hmin]
  · intro hnomatch
    have hfindnone :
        CATEGORY_KEYWORDS.find? (fun r => ruleMatchesTitle r (strLower e.title)) = none := by
      rw [List.find?_eq_none]
      intro x hx
      simp [hnomatch x hx]
    constructor
    · intro i t hi hk hmin
      simp only [determineCategory, hfindnone,
        find?_eq_of_first (fun t => isKnownTag t) e.categories i t hi hk hmin]
    · intro hall
      have h2 : e.categories.find? (fun t => isKnownTag t) = none := by
        rw [List.find?_eq_none]
        intro x hx
        simp [hall x hx]
      simp [determineCategory, hfindnone, h2]
  · rcases h1 : CATEGORY_KEYWORDS.find? (fun r => ruleMatchesTitle r (strLower e.title))
        with _ | r
    · rcases h2 : e.categories.find? (fun t => isKnownTag t) with _ | t
      · simp [determineCategory, h1, h2]
      · have hp := List.find?_some h2
        have hex : ∃ r ∈ CATEGORY_KEYWORDS, (r.1 == strLower t) = true := by
          simpa [isKnownTag, List.any_eq_true] using hp
        obtain ⟨r, hrmem, hreq⟩ := hex
        have heq : r.1 = strLower t := by simpa using hreq
        simp only [determineCategory, h1, h2, ← heq]
        fin_cases hrmem <;> simp
    · have hrmem := List.mem_of_find?_eq_some h1
      simp only [determineCategory, h1]
      fin_cases hrmem <;> simp

/-- A title containing both a NASCAR keyword and the racing-car glyph shared
with the F1 rule. -/
def evDualKeyword : EventModel := { title := "Daytona 500 🏎️" }

/-- C4 witness: on `evDualKeyword` the first (NASCAR) rule matches at index 0,
so classification returns "nascar", never "f1". -/
theorem c4_classification_priority_and_fallback_witness :
    determineCategory evDualKeyword = "nascar" :=
  (c4_classification_priority_and_fallback evDualKeyword).1 0
    ("nascar", ["nascar", "cup series", "daytona 500", "brickyard", "southern 500"])
    (by decide) (by decide) (fun j r' hj _ => absurd hj (by omega))

/-! ## C5 — alias word-boundary matching -/

/-- The test `occursIn` is false exactly when the needle is not a contiguous
sublist. -/
theorem occursIn_eq_false_iff (needle hay : List Char) :
    occursIn needle hay = false ↔ ¬ needle <:+: hay := by
  rw [← occursIn_iff]
  cases occursIn needle hay <;> simp

/-- C5: for every filter key other than the two sprint specials, the matcher
succeeds iff some alias of the key (the alias-table entry, defaulting to the
key itself when absent) occurs space-padded as a whole word inside the padded
normalized session name, or the normalized name equals the alias exactly; in
particular "p1" does not match "FP1 Practice" while "fp1" does. -/
theorem c5_alias_word_boundary (name key : String)
    (h1 : key ≠ "sprint") (h2 : key ≠ "sprint_qualy") :
    (isSessionMatch name [key] = true ↔
      ∃ al ∈ aliasesFor key,
        (" " ++ al ++ " ").data <:+: (" " ++ normName name ++ " ").data ∨
          normName name = al) ∧
    isSessionMatch "FP1 Practice" ["p1"] = false ∧
    isSessionMatch "FP1 Practice" ["fp1"] = true := by
  refine ⟨?_, by decide, by decide⟩
  simp only [isSessionMatch, List.any_cons, List.any_nil, Bool.or_false,
    if_neg h1, if_neg h2, List.any_eq_true, Bool.or_eq_true, occursIn_iff, beq_iff_eq]

/-- C5 witness: concrete instantiation at the keys "p1" and "fp1" on the
session name "FP1 Practice". -/
theorem c5_alias_word_boundary_witness :
    isSessionMatch "FP1 Practice" ["p1"] = false ∧
    isSessionMatch "FP1 Practice" ["fp1"] = true :=
  ⟨(c5_alias_word_boundary "FP1 Practice" "p1" (by decide) (by decide)).2.1,
   (c5_alias_word_boundary "FP1 Practice" "fp1" (by decide) (by decide)).2.2⟩

/-! ## C6 — sprint and sprint-qualifying specials -/

/-- C6: the "sprint" key matches exactly the normalized names containing
"sprint" but neither "qual" nor "clasif"; "sprint_qualy" matches exactly
those containing "sprint" and also "qual" or "clasif"; hence "sprint" rejects
the session "Sprint Qualifying" while "sprint_qualy" accepts it. -/
theorem c6_sprint_specials (name : String) :
    (isSessionMatch name ["sprint"] = true ↔
      ("sprint".data <:+: (normName name).data ∧
        ¬ ("qual".data <:+: (normName name).data) ∧
        ¬ ("clasif".data <:+: (normName name).data))) ∧
    (isSessionMatch name ["sprint_qualy"] = true ↔
      ("sprint".data <:+: (normName name).data ∧
        ("qual".data <:+: (normName name).data ∨
          "clasif".data <:+: (normName name).data))) ∧
    isSessionMatch "Sprint Qualifying" ["sprint"] = false ∧
    isSessionMatch "Sprint Qualifying" ["sprint_qualy"] = true := by
  refine ⟨?_, ?_, by decide, by decide⟩
  · simp [isSessionMatch, Bool.and_eq_true, Bool.not_eq_true', occursIn_iff,
      occursIn_eq_false_iff, and_assoc]
  · simp [isSessionMatch, Bool.and_eq_true, Bool.or_eq_true, occursIn_iff]

/-! ## Shared assembler lemma -/

/-- When the resolved effective session filter is falsy (absent or empty), the
session loop keeps every session: one calendar entry per session. -/
theorem processEvent_all_sessions (now : DateTime) (fs : Option (List String))
    (csf : Option (List (String × List String))) (e : EventModel)
    (heff : optTruthy (resolveEffectiveSessions csf fs (determineCategory e)) = false)
    (hsess : e.sessions ≠ []) :
    (processEvent none now none fs csf e).length = e.sessions.length := by
  cases hs : e.sessions with
  | nil => exact absurd hs hsess
  | cons a t =>
    simp only [processEvent, hs, heff, Bool.false_and]
    simp [optTruthy, length_filterMap_some]

/-! ## C2 — unknown timezone handling -/

/-- C2 counterexample: a timezone string that names no known zone but is
rejected as an invalid key ("/etc/localtime") makes the whole generate call
fail with an uncaught error instead of falling back with a warning. -/
theorem c2_invalid_tz_key_fails :
    (generateCalendar (fun _ => none) now0 [evClock10] none none none
      (some "/etc/localtime")).toOption = none := rfl

/-- C2 (amended): for every non-empty timezone string that is a structurally
valid zone key but is absent from the zone database, generation succeeds with
the unknown-zone warning set and with exactly the entries of a run performed
with no zone at all; and with no zone, a built entry's `dtstart` is the source
start value unchanged and a timed entry's `dtend` is the source end value
unchanged.  (Keys rejected as invalid — absolute paths, non-normalized keys
such as "a/..", "Area/./Location", "America//New_York" or "Europe/Madrid/",
and keys resolving outside the zone base — raise an uncaught error, and the
empty string is silently treated as no timezone.) -/
theorem c2_unknown_tz_nonfatal (db : String → Option Zone) (now : DateTime)
    (events : List EventModel) (fc fs : Option (List String))
    (csf : Option (List (String × List String))) (tz : String)
    (hne : tz ≠ "") (hvalid : validTzKey tz = true) (hdb : db tz = none) :
    generateCalendar db now events fc fs csf (some tz) =
      .ok { prodid := "-//RacingManager//Dynamic//ES", version := "2.0",
            calname := "Racing Schedule", publishedTtl := "PT1H",
            xWrTimezone := none, tzWarning := true,
            events := (events.map (processEvent none now fc fs csf)).flatten } ∧
    (∀ uidSeed summary st en ed sn ad,
      (createIcalEvent uidSeed summary st en ed sn ad none now).dtstart = st) ∧
    (∀ uidSeed summary st en ed sn,
      (createIcalEvent uidSeed summary st en ed sn false none now).dtend = en) := by
  refine ⟨?_, ?_, ?_⟩
  · simp only [generateCalendar, if_neg hne, zoneInfoLookup, hvalid, if_pos, hdb]
  · intro uidSeed summary st en ed sn ad
    cases st <;> rfl
  · intro uidSeed summary st en ed sn
    cases en <;> rfl

/-- C2 witness: the unknown (but valid) key "Mars/Olympus" over an empty zone
database and empty event list yields a successful, warned, empty calendar. -/
theorem c2_unknown_tz_nonfatal_witness :
    generateCalendar (fun _ => none) now0 [] none none none (some "Mars/Olympus") =
      .ok { prodid := "-//RacingManager//Dynamic//ES", version := "2.0",
            calname := "Racing Schedule", publishedTtl := "PT1H",
            xWrTimezone := none, tzWarning := true, events := [] } := by
  have h := (c2_unknown_tz_nonfatal (fun _ => none) now0 [] none none none
    "Mars/Olympus" (by decide) (by decide) rfl).1
  simpa using h

/-! ## C3 — empty session-filter set -/

/-- A session-bearing event classified as "f1". -/
def evF1Session : EventModel :=
  { title := "Formula 1 Show",
    sessions := [⟨"Race", ⟨⟨2025, 3, 2⟩, 10, 0, 0, some 0⟩, ⟨⟨2025, 3, 2⟩, 12, 0, 0, some 0⟩⟩] }

/-- C3 counterexample: with a per-category entry mapping the event's category
to the empty set, the resolved effective filter is the empty set, yet the
event still contributes its session entry (the assembler's truthiness check
skips the matcher entirely), contradicting "the event contributes no calendar
entries". -/
theorem c3_empty_filter_cex :
    resolveEffectiveSessions (some [("f1", [])]) none (determineCategory evF1Session) =
      some [] ∧
    (processEvent none now0 none none (some [("f1", [])]) evF1Session).length = 1 := by
  exact ⟨by decide, by decide⟩

/-- C3 (amended): the matcher itself returns false on the empty filter-key
set, but the assembler applies the matcher only when the effective filter is
non-empty — an empty effective filter set is treated like no filtering, so
every session of the event is kept (one entry per session). -/
theorem c3_empty_filter_semantics (name : String) (now : DateTime)
    (fs : Option (List String)) (csf : Option (List (String × List String)))
    (e : EventModel)
    (hres : resolveEffectiveSessions csf fs (determineCategory e) = some [])
    (hsess : e.sessions ≠ []) :
    isSessionMatch name [] = false ∧
    (processEvent none now none fs csf e).length = e.sessions.length := by
  refine ⟨by simp [isSessionMatch], ?_⟩
  exact processEvent_all_sessions now fs csf e (by rw [hres]; rfl) hsess

/-- C3 witness: concrete instantiation on a one-session event whose effective
filter resolves to the empty set. -/
theorem c3_empty_filter_semantics_witness :
    isSessionMatch "Qualy" [] = false ∧
    (processEvent none now0 none none (some [("f1", [])]) evF1Session).length =
      evF1Session.sessions.length :=
  c3_empty_filter_semantics "Qualy" now0 none (some [("f1", [])]) evF1Session
    (by decide) (by decide)

/-! ## C7 — exclusive all-day end date -/

/-- C7: every entry an all-day (session-less) event contributes stores an end
date equal to the event's real end date plus one calendar day, and a start
date equal to the real start date. -/
theorem c7_allday_exclusive_end (now : DateTime) (fc fs : Option (List String))
    (csf : Option (List (String × List String))) (e : EventModel)
    (s en : DateTime) (ev : ICalEvent)
    (hsess : e.sessions = []) (hs : e.start = some s) (he : e.«end» = some en)
    (hmem : ev ∈ processEvent none now fc fs csf e) :
    ev.dtend = ICalTime.d (nextDay en.date) ∧ ev.dtstart = ICalTime.d s.date := by
  simp only [processEvent, hsess, hs, he] at hmem
  split at hmem
  · simp at hmem
  · split at hmem
    · simp at hmem
    · rw [List.mem_singleton] at hmem
      subst hmem
      exact ⟨rfl, rfl⟩

def dummyIcal : ICalEvent :=
  createIcalEvent "" "" (.d ⟨0, 0, 0⟩) (.d ⟨0, 0, 0⟩) { title := "" } "" false none now0

/-- C7 witness: the spec's example — whole-event span 2025-03-01 .. 2025-03-03
produces an entry whose stored end date is 2025-03-04. -/
theorem c7_allday_exclusive_end_witness :
    ((processEvent none now0 none none none evSpanMar).headD dummyIcal).dtend =
      ICalTime.d ⟨2025, 3, 4⟩ := by
  have hmem : (processEvent none now0 none none none evSpanMar).headD dummyIcal ∈
      processEvent none now0 none none none evSpanMar := by decide
  have h := (c7_allday_exclusive_end now0 none none none evSpanMar
    ⟨⟨2025, 3, 1⟩, 0, 0, 0, some 0⟩ ⟨⟨2025, 3, 3⟩, 0, 0, 0, some 0⟩ _
    rfl rfl rfl hmem).1
  rw [h]
  decide

/-! ## C8 — whole-event race gate -/

/-- A session-less event classified as "f1". -/
def evAlldayF1 : EventModel :=
  { title := "Formula 1 GP",
    start := some ⟨⟨2025, 3, 1⟩, 0, 0, 0, some 0⟩,
    «end» := some ⟨⟨2025, 3, 3⟩, 0, 0, 0, some 0⟩ }

/-- C8 counterexample: a per-category filter entry is present and resolves to
the empty set — which does not include "race" — yet the session-less event is
not skipped: it still contributes its all-day entry, because the assembler's
truthiness test treats the empty set like no filter. -/
theorem c8_empty_filter_allday_cex :
    resolveEffectiveSessions (some [("f1", [])]) none (determineCategory evAlldayF1) =
      some [] ∧
    (processEvent none now0 none none (some [("f1", [])]) evAlldayF1).length = 1 := by
  exact ⟨by decide, by decide⟩

/-- C8 (amended): a session-less event is skipped exactly when the effective
session filter is present, NON-EMPTY, and does not include "race"; in every
other case (no filter, empty filter, or a filter containing "race") exactly
one all-day entry is built. -/
theorem c8_allday_race_gate (now : DateTime) (fs : Option (List String))
    (csf : Option (List (String × List String))) (e : EventModel)
    (s en : DateTime)
    (hsess : e.sessions = []) (hs : e.start = some s) (he : e.«end» = some en) :
    (processEvent none now none fs csf e = [] ↔
      ∃ f, resolveEffectiveSessions csf fs (determineCategory e) = some f ∧
        f ≠ [] ∧ "race" ∉ f) ∧
    ((¬ ∃ f, resolveEffectiveSessions csf fs (determineCategory e) = some f ∧
        f ≠ [] ∧ "race" ∉ f) →
      (processEvent none now none fs csf e).length = 1) := by
  have hred : processEvent none now none fs csf e =
      if optTruthy (resolveEffectiveSessions csf fs (determineCategory e)) &&
          !((resolveEffectiveSessions csf fs (determineCategory e)).getD
              []).contains "race" then []
      else [createIcalEvent (e.title ++ "|main")
        (iconFor (determineCategory e) ++ " " ++ cleanTitle e.title)
        (.d s.date) (.d en.date) e (cleanTitle e.title) true none now] := by
    simp only [processEvent, hsess, hs, he, optTruthy, Bool.false_and]
    rfl
  rw [hred]
  rcases heff : resolveEffectiveSessions csf fs (determineCategory e) with _ | f
  · simp [optTruthy]
  · cases f with
    | nil => simp [optTruthy]
    | cons a t =>
      by_cases hc : (a :: t).contains "race" = true
      · have hmem : "race" ∈ a :: t := by simpa using hc
        simp [optTruthy, hc, hmem]
      · have hmem : "race" ∉ a :: t := by simpa using hc
        simp [optTruthy, hc, hmem]

/-- C8 witness: a present, non-empty per-category filter without "race" skips
the session-less event entirely. -/
theorem c8_allday_race_gate_witness :
    processEvent none now0 none none (some [("f1", ["qualifying"])]) evAlldayF1 = [] :=
  (c8_allday_race_gate now0 none (some [("f1", ["qualifying"])]) evAlldayF1 _ _
    rfl rfl rfl).1.mpr ⟨["qualifying"], by decide, by decide, by decide⟩

/-! ## C9 — effective session-filter resolution -/

/-- The per-category session-filter entry the FilterRequest carries for a
category, if any ("carries an entry" in the spec's words: the per-category
dict exists and has a value under this category key). -/
def lookupCategoryEntry (csf : Option (List (String × List String)))
    (category : String) : Option (List String) :=
  match csf with
  | some m => listLookup m category
  | none => none

/-- C9: a per-category entry for the event's category, when carried, is used
as the effective filter (the global filter is ignored); with no entry for the
category the global filter is used; and when both are absent no session
filtering is applied — every session of the event is included. -/
theorem c9_effective_filter_resolution
    (csf : Option (List (String × List String))) (fs : Option (List String))
    (category : String) (f : List String) :
    (lookupCategoryEntry csf category = some f →
      resolveEffectiveSessions csf fs category = some f) ∧
    (lookupCategoryEntry csf category = none →
      resolveEffectiveSessions csf fs category = fs) ∧
    (∀ (now : DateTime) (e : EventModel), csf = none → fs = none →
      e.sessions ≠ [] →
      (processEvent none now none fs csf e).length = e.sessions.length) := by
  refine ⟨?_, ?_, ?_⟩
  · intro h
    cases csf with
    | none => simp [lookupCategoryEntry] at h
    | some m =>
      cases m with
      | nil => simp [lookupCategoryEntry, listLookup] at h
      | cons p m' =>
        simp only [lookupCategoryEntry] at h
        simp [resolveEffectiveSessions, h]
  · intro h
    cases csf with
    | none => rfl
    | some m =>
      cases m with
      | nil => rfl
      | cons p m' =>
        simp only [lookupCategoryEntry] at h
        simp [resolveEffectiveSessions, h]
  · intro now e hcsf hfs hsess
    subst hcsf; subst hfs
    exact processEvent_all_sessions now none none e rfl hsess

/-- C9 witness: the per-category entry wins over the global filter; a category
with no entry falls back to the global filter; with neither, every session is
kept. -/
theorem c9_effective_filter_resolution_witness :
    resolveEffectiveSessions (some [("f1", ["race"])]) (some ["qualifying"]) "f1" =
      some ["race"] ∧
    resolveEffectiveSessions (some [("f1", ["race"])]) (some ["qualifying"]) "motogp" =
      some ["qualifying"] ∧
    (processEvent none now0 none none none evClock10).length =
      evClock10.sessions.length :=
  ⟨(c9_effective_filter_resolution (some [("f1", ["race"])]) (some ["qualifying"])
      "f1" ["race"]).1 (by decide),
   (c9_effective_filter_resolution (some [("f1", ["race"])]) (some ["qualifying"])
      "motogp" ["race"]).2.1 (by decide),
   (c9_effective_filter_resolution none none "other" []).2.2 now0 evClock10
      rfl rfl (by decide)⟩

end RacingCalendar
